import Mathlib

/-
Verification development for the A2A MCP client (src/a2a-client.ts,
src/agent-manager.ts, src/index.ts).  The JavaScript code is shallowly
embedded: JSON values become an inductive type, the platform `JSON.parse`
is an oracle parameter `p : String → Option Json` (`none` models a thrown
SyntaxError), `fetch` is an oracle `String → FetchOutcome`, and byte
streams are lists of characters (the TextDecoderStream always hands the
loop whole characters, so character granularity is the finest chunking).
-/

namespace A2A

set_option maxRecDepth 8192

/-- Model of a parsed JSON value (result of `JSON.parse`).  Numbers are
modelled as integers; no claim depends on non-integral numerics. -/
inductive Json where
  | null
  | bool (b : Bool)
  | num (n : Int)
  | str (s : String)
  | arr (elems : List Json)
  | obj (fields : List (String × Json))

/-- Property lookup on the field list of a JSON object. -/
def lookupField : List (String × Json) → String → Option Json
  | [], _ => none
  | (k, v) :: rest, key => if k = key then some v else lookupField rest key

/-- JavaScript property access `j[key]`: `some v` when the property is
present, `none` for the JS value `undefined` (absent property, or access
on a non-object). -/
def getField : Json → String → Option Json
  | .obj fields, key => lookupField fields key
  | _, _ => none

/-- JavaScript truthiness of a parsed JSON value (`if (x)`). -/
def truthy : Json → Bool
  | .null => false
  | .bool b => b
  | .num n => n != 0
  | .str s => s != ""
  | .arr _ => true
  | .obj _ => true

/-- Truthiness of the property `key` of `j`; an absent property is the
falsy `undefined`. -/
def truthyField (j : Json) (key : String) : Bool :=
  match getField j key with
  | some v => truthy v
  | none => false

/-- JavaScript `typeof x === "object"` for a parsed JSON value: true for
objects, arrays and `null`. -/
def typeofObject : Json → Bool
  | .obj _ => true
  | .arr _ => true
  | .null => true
  | _ => false

/-- Strict comparison `j.jsonrpc === "2.0"` (a2a-client.ts lines 223 and
296): the `jsonrpc` property must be present and be the string "2.0". -/
def jsonrpcIs20 (j : Json) : Bool :=
  match getField j "jsonrpc" with
  | some (.str v) => v = "2.0"
  | _ => false

/-- Envelope validation of `_handleJsonResponse` (a2a-client.ts lines
220-224): `typeof jsonResponse === "object" && jsonResponse !== null &&
jsonResponse.jsonrpc === "2.0"`. -/
def isValidEnvelope (j : Json) : Bool :=
  typeofObject j && (match j with | .null => false | _ => true) && jsonrpcIs20 j

/-- Envelope validation of `_handleStreamingResponse` (a2a-client.ts lines
293-297): `typeof parsedData === "object" && parsedData !== null &&
("jsonrpc" in parsedData && parsedData.jsonrpc === "2.0")`. -/
def streamValidEnvelope (j : Json) : Bool :=
  typeofObject j && (match j with | .null => false | _ => true) && jsonrpcIs20 j

/-- The parts of a `fetch` `Response` that `_handleJsonResponse` reads:
`ok`, `status`, `statusText` and the text of the body. -/
structure Response where
  ok : Bool
  status : Nat
  statusText : String
  body : String

/-- Outcome of `_handleJsonResponse` (a2a-client.ts lines 194-241).
`success r` is a normal return carrying the value of the `result`
property (`none` = the JS `undefined` when the property is absent); the
other constructors are the distinct `throw new Error(...)` sites. -/
inductive UnaryOutcome where
  | success (result : Option Json)
  /-- the generic `HTTP error <status>: <statusText> - <body>` throw (line 210) -/
  | httpError (status : Nat) (statusText : String) (body : String)
  /-- `Invalid JSON-RPC response structure` (line 225) -/
  | invalidStructure
  /-- `<error.message> (<error.code>)` (line 229) carrying the `error` value -/
  | rpcError (e : Json)
  /-- `JSON.parse(responseBody)` threw on the success path (line 218) -/
  | parseFailure (body : String)

/-- The embedded-error throw attempted by the non-ok branch of
`_handleJsonResponse` (lines 202-209): parse the body and, when a truthy
`error` property is present, throw `<message> (<code>)`.  That `throw`
statement is written inside the same `try` block whose
`catch (parseError)` swallows every exception, so the thrown error never
escapes; this definition records what the branch attempts to throw. -/
def embeddedErrorAttempt (p : String → Option Json) (body : String) : Option Json :=
  match p body with
  | some parsedError =>
    match getField parsedError "error" with
    | some e => if truthy e then some e else none
    | none => none
  | none => none

/-- `_handleJsonResponse` (a2a-client.ts lines 194-241), with `JSON.parse`
as the oracle `p`.  On a non-ok response the embedded-error throw of lines
202-209 is caught by its own `catch` (see `embeddedErrorAttempt`), so
control always reaches the generic `HTTP error` throw of line 210. -/
def handleJsonResponse (p : String → Option Json) (r : Response) : UnaryOutcome :=
  if r.ok = false then
    .httpError r.status r.statusText r.body
  else
    match p r.body with
    | none => .parseFailure r.body
    | some jsonResponse =>
      if isValidEnvelope jsonResponse = false then .invalidStructure
      else
        match getField jsonResponse "error" with
        | some e =>
          if truthy e then .rpcError e
          else .success (getField jsonResponse "result")
        | none => .success (getField jsonResponse "result")

/-- `buffer.replace(/\r/g, "")` (a2a-client.ts line 285). -/
def stripCR (l : List Char) : List Char := l.filter (fun c => c ≠ '\r')

/-- `buffer.split("\n\n")` followed by `buffer = lines.pop() || ""`
(a2a-client.ts lines 285-286): left-to-right, non-overlapping split on the
two-character separator; the first component is the complete SSE messages
(`lines` after the pop), the second is the re-buffered final fragment. -/
def splitNN : List Char → List (List Char) × List Char
  | [] => ([], [])
  | [c] => ([], [c])
  | c1 :: c2 :: rest =>
    if c1 = '\n' ∧ c2 = '\n' then
      let r := splitNN rest
      ([] :: r.1, r.2)
    else
      let r := splitNN (c2 :: rest)
      match r.1 with
      | [] => ([], c1 :: r.2)
      | f :: fs => ((c1 :: f) :: fs, r.2)

/-- One read-loop iteration of `_handleStreamingResponse` for the frames
of `chunks`, threading the carry-over `buffer` (a2a-client.ts lines
272-286): per chunk, append to the buffer, strip carriage returns, split
on the blank line, emit the complete messages and keep the final fragment
buffered.  When the reads are exhausted (`done`) the loop breaks; a
leftover buffer is only warned about, never emitted. -/
def framesGo : List Char → List (List Char) → List (List Char)
  | _, [] => []
  | buf, c :: cs =>
    let r := splitNN (stripCR (buf ++ c))
    r.1 ++ framesGo r.2 cs

/-- The complete SSE messages produced by the read loop over `chunks`,
starting from the empty buffer (`let buffer = ""`, line 269). -/
def sseFrames (chunks : List (List Char)) : List (List Char) :=
  framesGo [] chunks

/-- `dataLine.trim()` on the character list: drop JS whitespace from both
ends (String.prototype.trim). -/
def trimEnds (l : List Char) : List Char :=
  ((l.dropWhile Char.isWhitespace).reverse.dropWhile Char.isWhitespace).reverse

/-- The literal `"data: "` message marker (a2a-client.ts line 288). -/
def dataMarker : List Char := "data: ".toList

/-- What the per-message body of the frame loop does with one complete
SSE message. -/
inductive FrameAction where
  /-- the message is ignored or dropped (`continue`, the warn branches,
  and the frame-level `catch` at line 319) -/
  | skip
  /-- `yield parsedData.result` (line 312) -/
  | yield (v : Json)

/-- The frame loop body of `_handleStreamingResponse` (a2a-client.ts lines
287-327) for one complete message `msg`: require the `data: ` marker,
strip it, trim, skip when empty, `JSON.parse` (oracle `p`; `none` = the
parse threw, caught at line 319 and skipped), skip structurally invalid
envelopes (line 302 `continue`).  A truthy `error` property logs and then
throws at line 310 — but that throw is raised inside the `try` whose
`catch (e)` at line 319 catches every exception and only logs it, so the
message is in fact skipped and the loop continues.  A present `result`
property (`!== undefined`) is yielded verbatim; otherwise the message is
warned about and skipped. -/
def handleFrame (p : String → Option Json) (msg : List Char) : FrameAction :=
  if msg.take 6 = dataMarker then
    let dataLine := trimEnds (msg.drop 6)
    if dataLine = [] then .skip
    else
      match p dataLine.asString with
      | none => .skip
      | some parsedData =>
        if streamValidEnvelope parsedData = false then .skip
        else if truthyField parsedData "error" then .skip
        else
          match getField parsedData "result" with
          | some v => .yield v
          | none => .skip
  else .skip

/-- Whether `msg` is a well-formed data frame whose envelope carries a
truthy `error` property (the lines 305-310 branch). -/
def isErrorFrame (p : String → Option Json) (msg : List Char) : Bool :=
  if msg.take 6 = dataMarker then
    let dataLine := trimEnds (msg.drop 6)
    if dataLine = [] then false
    else
      match p dataLine.asString with
      | none => false
      | some parsedData =>
        streamValidEnvelope parsedData && truthyField parsedData "error"
  else false

/-- The value a complete message contributes to the stream, if any. -/
def frameYield (p : String → Option Json) (msg : List Char) : Option Json :=
  match handleFrame p msg with
  | .yield v => some v
  | .skip => none

/-- The sequence of decoded results `_handleStreamingResponse` yields for
a byte stream delivered as `chunks`: the frame loop runs over every
complete message in read order, and (because the line 310 throw is
swallowed by the line 319 catch) no message terminates the loop, so the
yields are exactly the `frameYield`s of the messages in order. -/
def decodeResults (p : String → Option Json) (chunks : List (List Char)) : List Json :=
  (sseFrames chunks).filterMap (frameYield p)

/-- Observable actions of one `sendTaskSubscribe` round trip: events
yielded to the consumer, the `reader.releaseLock()` of the `finally`
block (a2a-client.ts line 334), and an error propagating to the consumer
(the rethrow at line 332). -/
inductive Ev where
  | emit (v : Json)
  | release
  | errorOut

/-- Marks the `releaseLock` action. -/
def isRelease : Ev → Bool
  | .release => true
  | _ => false

/-- `if (event.final) break` in the `a2a_send_task_subscribe` consumer
(src/index.ts line 233): JS truthiness of the `final` property. -/
def isFinalEvent (v : Json) : Bool := truthyField v "final"

/-- The consumer loop of `a2a_send_task_subscribe` (src/index.ts lines
228-234) applied to the events of one read chunk: push the event, then
`count++; if (count >= maxUpdates) break; if (event.final) break;`.
Returns the emitted events and `some count'` when the consumer keeps
iterating, `none` when it broke out of the `for await` loop. -/
def deliverEvents (maxUpdates : Nat) : List Json → Nat → List Ev × Option Nat
  | [], count => ([], some count)
  | v :: vs, count =>
    let count' := count + 1
    if maxUpdates ≤ count' then ([.emit v], none)
    else if isFinalEvent v then ([.emit v], none)
    else
      let r := deliverEvents maxUpdates vs count'
      (.emit v :: r.1, r.2)

/-- Trace of the generator body of `_handleStreamingResponse` interacting
with the `a2a_send_task_subscribe` consumer.  The transport delivers
`chunks` and then either signals `done` (`readOk = true`) or rejects the
next read (`readOk = false`).  Exit paths of the `try` (lines 271-336):
normal `break` on done; the catch-and-rethrow of a read error (lines
330-332); and the `return` the JS runtime injects at the suspended
`yield` when the consumer breaks out of its `for await` loop.  Each path
runs the `finally` block — `reader.releaseLock()` — exactly as the
translated trace shows. -/
def runChunks (p : String → Option Json) (maxUpdates : Nat) :
    List Char → List (List Char) → Nat → Bool → List Ev
  | _, [], _, readOk =>
    if readOk then [.release] else [.release, .errorOut]
  | buf, c :: cs, count, readOk =>
    let r := splitNN (stripCR (buf ++ c))
    let dv := deliverEvents maxUpdates (r.1.filterMap (frameYield p)) count
    match dv.2 with
    | none => dv.1 ++ [.release]
    | some count' => dv.1 ++ runChunks p maxUpdates r.2 cs count' readOk

/-- Full trace of one streaming call consumed by the
`a2a_send_task_subscribe` handler. -/
def subscribeTrace (p : String → Option Json) (maxUpdates : Nat)
    (chunks : List (List Char)) (readOk : Bool) : List Ev :=
  runChunks p maxUpdates [] chunks 0 readOk

/-- Outcome of one `fetch` call as `agentCard` observes it: a rejected
promise (network error), or a response with its `ok` flag, status,
status text and the result of `response.json()` (`none` = the body was
not valid JSON, so `.json()` rejects). -/
inductive FetchOutcome where
  | netErr (msg : String)
  | resp (ok : Bool) (status : Nat) (statusText : String) (jsonBody : Option Json)

/-- `` `${this.baseUrl}/.well-known/agent.json` `` (a2a-client.ts line 346).
URLs are modelled as their character sequences. -/
def wellKnownUrl (baseUrl : List Char) : List Char :=
  baseUrl ++ "/.well-known/agent.json".toList

/-- `` `${this.baseUrl}/agent-card` `` (a2a-client.ts line 355). -/
def agentCardUrl (baseUrl : List Char) : List Char :=
  baseUrl ++ "/agent-card".toList

/-- Result of `agentCard()` (a2a-client.ts lines 342-378). -/
inductive CardResult where
  /-- the parsed JSON body returned as the AgentCard -/
  | card (j : Json)
  /-- a success-status response whose body was not JSON: `return
  response.json()` returns the rejecting promise, whose rejection is not
  wrapped by the outer catch -/
  | bodyNotJson
  /-- both attempts failed, last with a non-success status: the line 364
  throw wrapped by the outer catch into `Could not retrieve agent card:
  HTTP error <status> ...` -/
  | wrappedHttp (status : Nat) (statusText : String)
  /-- both attempts failed, last with a network error: wrapped by the
  outer catch into `Could not retrieve agent card: <message>` -/
  | wrappedNet (msg : String)

/-- `agentCard()` (a2a-client.ts lines 342-378) with `fetch` as an oracle
from URL to outcome.  First attempt: GET the well-known URL inside its
own `try`; a success status returns the JSON body; a thrown network
error is ignored (line 350) and a non-success status falls out of the
`if` — either way control falls through to the second attempt.  Second
attempt: GET the agent-card URL; success returns the JSON body, a
non-success status throws the HTTP error of line 364, and both that and
a network error are wrapped once by the outer catch (lines 370-377). -/
def agentCard (fetchOracle : List Char → FetchOutcome) (baseUrl : List Char) : CardResult :=
  match fetchOracle (wellKnownUrl baseUrl) with
  | .resp true _ _ (some j) => .card j
  | .resp true _ _ none => .bodyNotJson
  | _ =>
    match fetchOracle (agentCardUrl baseUrl) with
    | .resp true _ _ (some j) => .card j
    | .resp true _ _ none => .bodyNotJson
    | .resp false status statusText _ => .wrappedHttp status statusText
    | .netErr m => .wrappedNet m

/-- `baseUrl.endsWith("/")` on the character sequence of the URL: the
one-character suffix test is whether the last character is a slash. -/
def endsWithSlash (l : List Char) : Bool := l.getLast? == some '/'

/-- The constructor normalization of `A2AClient` (a2a-client.ts lines
140-143): `baseUrl.endsWith("/") ? baseUrl.slice(0, -1) : baseUrl`
(`slice(0, -1)` drops the last character). -/
def normalizeBaseUrl (baseUrl : List Char) : List Char :=
  if endsWithSlash baseUrl then baseUrl.dropLast else baseUrl

/-- The state of an `A2AClient`: exactly the private `baseUrl` field. -/
structure A2AClient where
  baseUrl : List Char

/-- `new A2AClient(baseUrl)`. -/
def mkClient (baseUrl : List Char) : A2AClient := ⟨normalizeBaseUrl baseUrl⟩

/-- The URL every JSON-RPC request of the client is POSTed to:
`fetch(this.baseUrl, ...)` (a2a-client.ts line 174). -/
def rpcRequestUrl (c : A2AClient) : List Char := c.baseUrl

/-- A configured endpoint (src/config.ts lines 3-6). -/
structure AgentEndpoint where
  id : String
  url : List Char

/-- Whether the reachability probe of `AgentManager.initialize` —
`await client.agentCard()` (src/agent-manager.ts line 20) — succeeds for
the client of `url`. -/
def probeOk (fetchOracle : List Char → FetchOutcome) (url : List Char) : Bool :=
  match agentCard fetchOracle (mkClient url).baseUrl with
  | .card _ => true
  | _ => false

/-- `AgentManager.initialize` (src/agent-manager.ts lines 13-27): for each
configured endpoint in order, construct a client and probe it with
`agentCard()`; on success `this.clients.set(endpoint.id, client)` (the JS
`Map` keeps insertion order, modelled as an association list), on any
failure only log and continue with the remaining endpoints. -/
def initClients (fetchOracle : List Char → FetchOutcome) :
    List AgentEndpoint → List (String × A2AClient)
  | [] => []
  | e :: rest =>
    let client := mkClient e.url
    match agentCard fetchOracle client.baseUrl with
    | .card _ => (e.id, client) :: initClients fetchOracle rest
    | _ => initClients fetchOracle rest

/-- `AgentManager.getClientById` (src/agent-manager.ts lines 29-31):
`this.clients.get(id)`. -/
def getClientById (clients : List (String × A2AClient)) (id : String) :
    Option A2AClient :=
  List.lookup id clients

/-- `AgentManager.getEndpoints` (src/agent-manager.ts lines 37-39):
returns the configured endpoint list unchanged. -/
def getEndpoints (endpoints : List AgentEndpoint) : List AgentEndpoint :=
  endpoints

/-! Lemmas about the SSE framing stage. -/

theorem splitNN_eq_pos (c1 c2 : Char) (rest : List Char) (h : c1 = '\n' ∧ c2 = '\n') :
    splitNN (c1 :: c2 :: rest) = ([] :: (splitNN rest).1, (splitNN rest).2) := by
  simp only [splitNN, if_pos h]

theorem splitNN_eq_neg_nil (c1 c2 : Char) (rest : List Char)
    (h : ¬(c1 = '\n' ∧ c2 = '\n')) (hr : (splitNN (c2 :: rest)).1 = []) :
    splitNN (c1 :: c2 :: rest) = ([], c1 :: (splitNN (c2 :: rest)).2) := by
  simp only [splitNN, if_neg h]
  rw [hr]

theorem splitNN_eq_neg_cons (c1 c2 : Char) (rest : List Char) (f : List Char)
    (fs : List (List Char)) (h : ¬(c1 = '\n' ∧ c2 = '\n'))
    (hr : (splitNN (c2 :: rest)).1 = f :: fs) :
    splitNN (c1 :: c2 :: rest) = ((c1 :: f) :: fs, (splitNN (c2 :: rest)).2) := by
  simp only [splitNN, if_neg h]
  rw [hr]

theorem splitNN_fst_nil {l : List Char} (h : (splitNN l).1 = []) :
    (splitNN l).2 = l := by
  induction l using splitNN.induct with
  | case1 => rfl
  | case2 c => rfl
  | case3 c1 c2 rest hnn ih => rw [splitNN_eq_pos c1 c2 rest hnn] at h; simp at h
  | case4 c1 c2 rest hnn r hr ih =>
    rw [splitNN_eq_neg_nil c1 c2 rest hnn hr]
    exact congrArg (c1 :: ·) (ih hr)
  | case5 c1 c2 rest hnn r f fs hr ih =>
    rw [splitNN_eq_neg_cons c1 c2 rest f fs hnn hr] at h; simp at h

theorem splitNN_snd_eq (l : List Char) :
    splitNN ((splitNN l).2) = ([], (splitNN l).2) := by
  induction l using splitNN.induct with
  | case1 => rfl
  | case2 c => rfl
  | case3 c1 c2 rest hnn ih => rw [splitNN_eq_pos c1 c2 rest hnn]; exact ih
  | case4 c1 c2 rest hnn r hr ih =>
    have he : splitNN (c1 :: c2 :: rest) = ([], c1 :: c2 :: rest) := by
      rw [splitNN_eq_neg_nil c1 c2 rest hnn hr, splitNN_fst_nil hr]
    rw [he]
    exact he
  | case5 c1 c2 rest hnn r f fs hr ih =>
    rw [splitNN_eq_neg_cons c1 c2 rest f fs hnn hr]
    exact ih

theorem splitNN_snd_sublist (l : List Char) : (splitNN l).2.Sublist l := by
  induction l using splitNN.induct with
  | case1 => exact List.Sublist.refl _
  | case2 c => exact List.Sublist.refl _
  | case3 c1 c2 rest hnn ih =>
    rw [splitNN_eq_pos c1 c2 rest hnn]
    exact (ih.cons c2).cons c1
  | case4 c1 c2 rest hnn r hr ih =>
    rw [splitNN_eq_neg_nil c1 c2 rest hnn hr, splitNN_fst_nil hr]
  | case5 c1 c2 rest hnn r f fs hr ih =>
    rw [splitNN_eq_neg_cons c1 c2 rest f fs hnn hr]
    exact ih.cons c1

theorem splitNN_append (a b : List Char) :
    splitNN (a ++ b) =
      ((splitNN a).1 ++ (splitNN ((splitNN a).2 ++ b)).1,
       (splitNN ((splitNN a).2 ++ b)).2) := by
  induction a using splitNN.induct with
  | case1 => simp [splitNN]
  | case2 c => simp [splitNN]
  | case3 c1 c2 rest hnn ih =>
    rw [List.cons_append, List.cons_append, splitNN_eq_pos c1 c2 (rest ++ b) hnn,
      splitNN_eq_pos c1 c2 rest hnn, ih]
    simp
  | case4 c1 c2 rest hnn r hr ih =>
    rw [splitNN_eq_neg_nil c1 c2 rest hnn hr, splitNN_fst_nil hr]
    simp
  | case5 c1 c2 rest hnn r f fs hr ih =>
    have hfst : (splitNN (c2 :: (rest ++ b))).1 =
        f :: (fs ++ (splitNN ((splitNN (c2 :: rest)).2 ++ b)).1) := by
      rw [show c2 :: (rest ++ b) = (c2 :: rest) ++ b from rfl, ih, hr]
      rfl
    have hsnd : (splitNN (c2 :: (rest ++ b))).2 =
        (splitNN ((splitNN (c2 :: rest)).2 ++ b)).2 := by
      rw [show c2 :: (rest ++ b) = (c2 :: rest) ++ b from rfl, ih]
    rw [List.cons_append, List.cons_append,
      splitNN_eq_neg_cons c1 c2 (rest ++ b) _ _ hnn hfst, hsnd,
      splitNN_eq_neg_cons c1 c2 rest f fs hnn hr]
    simp

theorem stripCR_append (a b : List Char) :
    stripCR (a ++ b) = stripCR a ++ stripCR b := by
  simp [stripCR]

theorem stripCR_noCR (l : List Char) (h : ∀ c ∈ l, c ≠ '\r') :
    stripCR l = l := by
  apply List.filter_eq_self.mpr
  intro c hc
  simpa using h c hc

theorem mem_stripCR_ne {l : List Char} {c : Char} (h : c ∈ stripCR l) : c ≠ '\r' := by
  have := List.of_mem_filter h
  simpa using this

theorem framesGo_eq_splitNN (chunks : List (List Char)) :
    ∀ buf, splitNN buf = ([], buf) → stripCR buf = buf →
      framesGo buf chunks = (splitNN (buf ++ stripCR chunks.flatten)).1 := by
  induction chunks with
  | nil =>
    intro buf h1 _
    simp [framesGo, stripCR, h1]
  | cons c cs ih =>
    intro buf h1 h2
    have hbufCR : ∀ x ∈ buf, x ≠ '\r' := by
      intro x hx
      have : x ∈ stripCR buf := by rw [h2]; exact hx
      exact mem_stripCR_ne this
    have hA : stripCR (buf ++ c) = buf ++ stripCR c := by
      rw [stripCR_append, h2]
    have hAfree : ∀ x ∈ buf ++ stripCR c, x ≠ '\r' := by
      intro x hx
      rcases List.mem_append.mp hx with h | h
      · exact hbufCR x h
      · exact mem_stripCR_ne h
    have hrem1 : splitNN ((splitNN (buf ++ stripCR c)).2) =
        ([], (splitNN (buf ++ stripCR c)).2) := splitNN_snd_eq _
    have hrem2 : stripCR ((splitNN (buf ++ stripCR c)).2) =
        (splitNN (buf ++ stripCR c)).2 := by
      apply stripCR_noCR
      intro x hx
      exact hAfree x ((splitNN_snd_sublist (buf ++ stripCR c)).subset hx)
    have := ih ((splitNN (buf ++ stripCR c)).2) hrem1 hrem2
    simp only [framesGo, hA, this]
    rw [List.flatten_cons, stripCR_append, ← List.append_assoc,
      splitNN_append (buf ++ stripCR c) (stripCR cs.flatten)]

theorem decodeResults_chunking (p : String → Option Json)
    (chunks : List (List Char)) :
    decodeResults p chunks =
      ((splitNN (stripCR chunks.flatten)).1).filterMap (frameYield p) := by
  unfold decodeResults sseFrames
  rw [framesGo_eq_splitNN chunks [] rfl rfl]
  simp

/-! Lemmas about the release trace of a streaming call. -/

theorem deliverEvents_no_release (maxUpdates : Nat) (evs : List Json) :
    ∀ count : Nat, (deliverEvents maxUpdates evs count).1.countP isRelease = 0 := by
  induction evs with
  | nil => intro count; rfl
  | cons v vs ih =>
    intro count
    simp only [deliverEvents]
    by_cases h1 : maxUpdates ≤ count + 1
    · simp [h1, List.countP_cons, isRelease]
    · by_cases h2 : isFinalEvent v
      · simp [h1, h2, List.countP_cons, isRelease]
      · simp [h1, h2, List.countP_cons, isRelease, ih]

theorem runChunks_release_once (p : String → Option Json) (maxUpdates : Nat)
    (chunks : List (List Char)) :
    ∀ (buf : List Char) (count : Nat) (readOk : Bool),
      (runChunks p maxUpdates buf chunks count readOk).countP isRelease = 1 := by
  induction chunks with
  | nil =>
    intro buf count readOk
    cases readOk <;> simp [runChunks, List.countP_cons, isRelease]
  | cons c cs ih =>
    intro buf count readOk
    simp only [runChunks]
    cases hdv : (deliverEvents maxUpdates
        ((splitNN (stripCR (buf ++ c))).1.filterMap (frameYield p)) count).2 with
    | none =>
      simp [List.countP_append, deliverEvents_no_release, List.countP_cons, isRelease]
    | some count' =>
      simp [List.countP_append, deliverEvents_no_release, ih]

/-! Lemmas about the frame loop. -/

theorem take6_data (d : List Char) : (dataMarker ++ d).take 6 = dataMarker := rfl

theorem drop6_data (d : List Char) : (dataMarker ++ d).drop 6 = d := rfl

theorem handleFrame_yield (p : String → Option Json) (d : List Char) (j v : Json)
    (hne : trimEnds d ≠ [])
    (hp : p (trimEnds d).asString = some j)
    (hval : streamValidEnvelope j = true)
    (herr : truthyField j "error" = false)
    (hres : getField j "result" = some v) :
    handleFrame p (dataMarker ++ d) = .yield v := by
  unfold handleFrame
  rw [take6_data, if_pos rfl, drop6_data]
  rw [if_neg hne, hp]
  simp [hval, herr, hres]

theorem handleFrame_skip_malformed (p : String → Option Json) (d : List Char)
    (hm : p (trimEnds d).asString = none ∨
      ∃ jm, p (trimEnds d).asString = some jm ∧ streamValidEnvelope jm = false) :
    handleFrame p (dataMarker ++ d) = .skip := by
  unfold handleFrame
  rw [take6_data, if_pos rfl, drop6_data]
  by_cases hne : trimEnds d = []
  · rw [if_pos hne]
  · rw [if_neg hne]
    rcases hm with hm | ⟨jm, hjm, hmv⟩
    · rw [hm]
    · rw [hjm]
      simp [hmv]

theorem splitNN_noNl (rest : List Char) (x : List Char) (hx : ∀ c ∈ x, c ≠ '\n') :
    splitNN (x ++ '\n' :: '\n' :: rest) = (x :: (splitNN rest).1, (splitNN rest).2) := by
  induction x with
  | nil =>
    rw [List.nil_append, splitNN_eq_pos '\n' '\n' rest ⟨rfl, rfl⟩]
  | cons a x' ih =>
    have ha : a ≠ '\n' := hx a (List.mem_cons_self a x')
    have ih' := ih (fun c hc => hx c (List.mem_cons_of_mem a hc))
    rcases hx' : x' ++ '\n' :: '\n' :: rest with _ | ⟨e, t⟩
    · exact absurd hx' (by simp)
    · rw [List.cons_append, hx']
      have hin : (splitNN (e :: t)).1 = x' :: (splitNN rest).1 := by
        rw [← hx', ih']
      have hsn : (splitNN (e :: t)).2 = (splitNN rest).2 := by
        rw [← hx', ih']
      rw [splitNN_eq_neg_cons a e t x' ((splitNN rest).1) (fun h => ha h.1) hin, hsn]

/-! Lemmas about the unary response handler. -/

theorem handleJson_success_of (p : String → Option Json) (r : Response) (j : Json)
    (hok : r.ok = true) (hbody : p r.body = some j)
    (hval : isValidEnvelope j = true) (herr : truthyField j "error" = false) :
    handleJsonResponse p r = .success (getField j "result") := by
  have hstep : handleJsonResponse p r =
      (match getField j "error" with
       | some e => if truthy e then .rpcError e else .success (getField j "result")
       | none => .success (getField j "result")) := by
    simp [handleJsonResponse, hok, hbody, hval]
  rw [hstep]
  cases hge : getField j "error" with
  | none => rfl
  | some e =>
    have hte : truthy e = false := by
      unfold truthyField at herr
      rw [hge] at herr
      exact herr
    simp [hte]

theorem handleJson_rpcError_of (p : String → Option Json) (r : Response) (j e : Json)
    (hok : r.ok = true) (hbody : p r.body = some j)
    (hval : isValidEnvelope j = true) (herr : getField j "error" = some e)
    (ht : truthy e = true) :
    handleJsonResponse p r = .rpcError e := by
  simp [handleJsonResponse, hok, hbody, hval, herr, ht]

theorem handleJson_invalid_of (p : String → Option Json) (r : Response) (j : Json)
    (hok : r.ok = true) (hbody : p r.body = some j) (hval : isValidEnvelope j = false) :
    handleJsonResponse p r = .invalidStructure := by
  simp [handleJsonResponse, hok, hbody, hval]

theorem handleJson_parseFailure_of (p : String → Option Json) (r : Response)
    (hok : r.ok = true) (hbody : p r.body = none) :
    handleJsonResponse p r = .parseFailure r.body := by
  simp [handleJsonResponse, hok, hbody]

/-! The claim theorems. -/

/-- C1: streaming decode is chunk-boundary-insensitive.  For every
`JSON.parse` oracle and every byte stream, delivering the stream to
`_handleStreamingResponse` one character at a time and delivering it as a
single whole-body chunk yield the identical sequence of decoded
results. -/
theorem sse_chunk_insensitive (p : String → Option Json) (s : List Char) :
    decodeResults p (s.map (fun c => [c])) = decodeResults p [s] := by
  rw [decodeResults_chunking, decodeResults_chunking]
  have h1 : (s.map (fun c => [c])).flatten = s := by
    induction s with
    | nil => rfl
    | cons a t ih => simp [ih]
  have h2 : ([s] : List (List Char)).flatten = s := by simp
  rw [h1, h2]

/-- C6: the transport resource backing the stream — the reader lock
released by `reader.releaseLock()` in the `finally` block of
`_handleStreamingResponse` — is released exactly once on every exit path
of the decode loop: normal end of stream (`readOk = true` with the chunks
exhausted), a read error (`readOk = false`), and consumer-initiated early
stop (the `a2a_send_task_subscribe` consumer breaking after `maxUpdates`
events or on an event whose `final` property is truthy). -/
theorem release_exactly_once (p : String → Option Json) (maxUpdates : Nat)
    (chunks : List (List Char)) (readOk : Bool) :
    (subscribeTrace p maxUpdates chunks readOk).countP isRelease = 1 :=
  runChunks_release_once p maxUpdates chunks [] 0 readOk

/-- C9 counterexample: the constructor strips only one trailing slash, so
for the input "http://x//" the stored base URL is "http://x/", which still
ends with a slash — refuting the claim that for every constructor input
the client base URL does not end with a slash. -/
theorem normalize_counterexample :
    endsWithSlash (mkClient "http://x//".toList).baseUrl = true := by decide

/-- C9 amended: the stored base URL is the constructor input with exactly
one trailing slash removed when one is present (it can still end with a
slash when the input ended with two), and every JSON-RPC request is
issued against exactly that stored URL. -/
theorem baseUrl_one_slash_stripped (s : List Char) :
    rpcRequestUrl (mkClient s) = (mkClient s).baseUrl ∧
    (endsWithSlash s = true → (mkClient s).baseUrl = s.dropLast) ∧
    (endsWithSlash s = false → (mkClient s).baseUrl = s) := by
  refine ⟨rfl, ?_, ?_⟩ <;> intro h <;> simp [mkClient, normalizeBaseUrl, h]

/-- Witness for the amended C9 at the input "http://a/". -/
theorem baseUrl_one_slash_stripped_witness :
    endsWithSlash "http://a/".toList = true ∧
    (mkClient "http://a/".toList).baseUrl = "http://a".toList := by
  refine ⟨by decide, ?_⟩
  have h := (baseUrl_one_slash_stripped "http://a/".toList).2.1 (by decide)
  rw [h]
  decide

/-! Concrete material for the C2 evaluation. -/

/-- The `error` member of the C2 body. -/
def errMember2 : Json :=
  .obj [("code", .num (-32600)), ("message", .str "Invalid Request")]

/-- A JSON-RPC error envelope, as parsed. -/
def errEnvelope2 : Json :=
  .obj [("jsonrpc", .str "2.0"), ("id", .num 1), ("error", errMember2)]

/-- The corresponding body text. -/
def errBody2 : String :=
  "\x7b\"jsonrpc\":\"2.0\",\"id\":1,\"error\":\x7b\"code\":-32600,\"message\":\"Invalid Request\"\x7d\x7d"

/-- `JSON.parse` oracle knowing exactly the C2 body. -/
def parse2 : String → Option Json :=
  fun s => if s = errBody2 then some errEnvelope2 else none

/-- A non-success HTTP response carrying a parseable JSON-RPC error
envelope in its body. -/
def resp2 : Response := ⟨false, 500, "Internal Server Error", errBody2⟩

/-- C2 (code bug): for a non-success response whose body parses as a
JSON-RPC error envelope with a truthy `error` member, the branch at lines
202-209 attempts to throw the embedded message — but because that throw
is inside the `try` whose `catch (parseError)` discards every exception,
the call still fails with the generic `HTTP error 500` carrying the raw
body, not with the embedded message and code the claim (and the spec)
require. -/
theorem nonOk_embedded_error_swallowed :
    embeddedErrorAttempt parse2 errBody2 = some errMember2 ∧
    handleJsonResponse parse2 resp2 =
      .httpError 500 "Internal Server Error" errBody2 := ⟨rfl, rfl⟩

/-! Concrete material for the C3 counterexample. -/

/-- An envelope with the protocol marker but with neither a `result` nor
an `error` member. -/
def bareEnvelope : Json := .obj [("jsonrpc", .str "2.0")]

/-- The corresponding body text. -/
def bareBody : String := "\x7b\"jsonrpc\":\"2.0\"\x7d"

/-- `JSON.parse` oracle knowing exactly the C3 body. -/
def parse3 : String → Option Json :=
  fun s => if s = bareBody then some bareEnvelope else none

/-- A successful HTTP response whose body is the bare envelope. -/
def resp3 : Response := ⟨true, 200, "OK", bareBody⟩

/-- C3 counterexample: a successful response whose well-marked envelope
contains neither a `result` nor an `error` member is not rejected with a
protocol error — `_handleJsonResponse` returns normally with the absent
(`undefined`) result, because the code never checks that one of the two
members is present. -/
theorem neither_member_not_rejected :
    getField bareEnvelope "result" = none ∧
    getField bareEnvelope "error" = none ∧
    handleJsonResponse parse3 resp3 = .success none := ⟨rfl, rfl, rfl⟩

/-- C3 amended: for a successful unary response the body is parsed as a
JSON-RPC envelope; the call fails with a protocol error when the body is
not valid JSON, or the parsed value is not an object (or is null), or
lacks the protocol-version marker "2.0"; a truthy `error` member is
surfaced as an error; otherwise the value of the `result` member is
returned — an envelope with neither member is not rejected, its absent
result is returned as the undefined value. -/
theorem unary_envelope_validation (p : String → Option Json) (r : Response)
    (hok : r.ok = true) :
    (p r.body = none → handleJsonResponse p r = .parseFailure r.body) ∧
    (∀ j, p r.body = some j → isValidEnvelope j = false →
      handleJsonResponse p r = .invalidStructure) ∧
    (∀ j e, p r.body = some j → isValidEnvelope j = true →
      getField j "error" = some e → truthy e = true →
      handleJsonResponse p r = .rpcError e) ∧
    (∀ j, p r.body = some j → isValidEnvelope j = true →
      truthyField j "error" = false →
      handleJsonResponse p r = .success (getField j "result")) := by
  refine ⟨?_, ?_, ?_, ?_⟩
  · intro h
    exact handleJson_parseFailure_of p r hok h
  · intro j hj hv
    exact handleJson_invalid_of p r j hok hj hv
  · intro j e hj hv he ht
    exact handleJson_rpcError_of p r j e hok hj hv he ht
  · intro j hj hv ht
    exact handleJson_success_of p r j hok hj hv ht

/-- Witness for the amended C3 at the bare envelope. -/
theorem unary_envelope_validation_witness :
    handleJsonResponse parse3 resp3 = .success (getField bareEnvelope "result") :=
  (unary_envelope_validation parse3 resp3 rfl).2.2.2 bareEnvelope rfl rfl rfl

/-! Concrete material for the C4 evaluation. -/

/-- Data line of a well-formed error frame. -/
def errLine4 : String :=
  "\x7b\"jsonrpc\":\"2.0\",\"id\":1,\"error\":\x7b\"code\":-32000,\"message\":\"boom\"\x7d\x7d"

/-- Data line of a well-formed result frame that follows the error frame
in the raw byte stream. -/
def okLine4 : String :=
  "\x7b\"jsonrpc\":\"2.0\",\"id\":1,\"result\":\x7b\"id\":\"t1\"\x7d\x7d"

/-- The parsed error envelope. -/
def errEnvelope4 : Json :=
  .obj [("jsonrpc", .str "2.0"), ("id", .num 1),
        ("error", .obj [("code", .num (-32000)), ("message", .str "boom")])]

/-- The result carried by the second frame. -/
def okResult4 : Json := .obj [("id", .str "t1")]

/-- The parsed result envelope. -/
def okEnvelope4 : Json :=
  .obj [("jsonrpc", .str "2.0"), ("id", .num 1), ("result", okResult4)]

/-- `JSON.parse` oracle knowing the two C4 data lines. -/
def parse4 : String → Option Json :=
  fun s =>
    if s = errLine4 then some errEnvelope4
    else if s = okLine4 then some okEnvelope4
    else none

/-- The raw byte stream: an error frame, then a result frame. -/
def stream4 : List Char :=
  dataMarker ++ errLine4.toList ++ ['\n', '\n']
    ++ (dataMarker ++ okLine4.toList ++ ['\n', '\n'])

/-- C4 (code bug): the stream contains a well-formed data frame carrying
an `error` member followed by a well-formed result frame.  The claim (and
the spec) say decoding raises a protocol error at the error frame and
yields nothing further; but the `throw` at line 310 is raised inside the
`try` whose frame-level `catch (e)` at line 319 catches and merely logs
it, so the decoder continues and still yields the result of the later
frame. -/
theorem error_frame_does_not_terminate :
    isErrorFrame parse4 (dataMarker ++ errLine4.toList) = true ∧
    sseFrames [stream4] =
      [dataMarker ++ errLine4.toList, dataMarker ++ okLine4.toList] ∧
    decodeResults parse4 [stream4] = [okResult4] := ⟨rfl, rfl, rfl⟩

/-! Concrete-character lemmas for assembling SSE bodies. -/

theorem noNl_mark : ∀ c ∈ dataMarker, c ≠ '\n' := by decide

theorem noCR_mark : ∀ c ∈ dataMarker, c ≠ '\r' := by decide

theorem noNl_block (d : List Char) (hd : ∀ c ∈ d, c ≠ '\n') :
    ∀ c ∈ dataMarker ++ d, c ≠ '\n' := by
  intro c hc
  rcases List.mem_append.mp hc with hc | hc
  · exact noNl_mark c hc
  · exact hd c hc

theorem noCR_seg (d : List Char) (hd : ∀ c ∈ d, c ≠ '\r') (tail : List Char)
    (htail : ∀ c ∈ tail, c ≠ '\r') :
    ∀ c ∈ (dataMarker ++ d) ++ ('\n' :: '\n' :: tail), c ≠ '\r' := by
  intro c hc
  rcases List.mem_append.mp hc with hc | hc
  · rcases List.mem_append.mp hc with hc | hc
    · exact noCR_mark c hc
    · exact hd c hc
  · rcases List.mem_cons.mp hc with rfl | hc
    · decide
    · rcases List.mem_cons.mp hc with rfl | hc
      · decide
      · exact htail c hc

/-- C5: a malformed data frame (body that does not parse as JSON, or
parses to a structurally invalid envelope: not an object or lacking the
protocol-version marker) between two well-formed result frames is dropped
and the stream continues — both well-formed results are still yielded, in
their original order. -/
theorem malformed_frame_between_results (p : String → Option Json)
    (d1 dm d2 : List Char) (j1 j2 v1 v2 : Json)
    (hc1 : ∀ c ∈ d1, c ≠ '\n' ∧ c ≠ '\r')
    (hcm : ∀ c ∈ dm, c ≠ '\n' ∧ c ≠ '\r')
    (hc2 : ∀ c ∈ d2, c ≠ '\n' ∧ c ≠ '\r')
    (ht1 : trimEnds d1 ≠ []) (hp1 : p (trimEnds d1).asString = some j1)
    (hv1 : streamValidEnvelope j1 = true) (he1 : truthyField j1 "error" = false)
    (hr1 : getField j1 "result" = some v1)
    (hm : p (trimEnds dm).asString = none ∨
      ∃ jm, p (trimEnds dm).asString = some jm ∧ streamValidEnvelope jm = false)
    (ht2 : trimEnds d2 ≠ []) (hp2 : p (trimEnds d2).asString = some j2)
    (hv2 : streamValidEnvelope j2 = true) (he2 : truthyField j2 "error" = false)
    (hr2 : getField j2 "result" = some v2) :
    decodeResults p
      [dataMarker ++ d1 ++ ['\n', '\n']
        ++ (dataMarker ++ dm ++ ['\n', '\n'])
        ++ (dataMarker ++ d2 ++ ['\n', '\n'])] = [v1, v2] := by
  have body_eq :
      dataMarker ++ d1 ++ ['\n', '\n']
        ++ (dataMarker ++ dm ++ ['\n', '\n'])
        ++ (dataMarker ++ d2 ++ ['\n', '\n'])
      = (dataMarker ++ d1) ++ ('\n' :: '\n' ::
          ((dataMarker ++ dm) ++ ('\n' :: '\n' ::
            ((dataMarker ++ d2) ++ ('\n' :: '\n' :: ([] : List Char)))))) := by
    simp
  rw [decodeResults_chunking]
  have hfl : ∀ l : List Char, ([l] : List (List Char)).flatten = l := by simp
  rw [hfl, body_eq]
  have hnil : ∀ c ∈ ([] : List Char), c ≠ '\r' := by simp
  have hnoCR := noCR_seg d1 (fun c hc => (hc1 c hc).2) _
    (noCR_seg dm (fun c hc => (hcm c hc).2) _
      (noCR_seg d2 (fun c hc => (hc2 c hc).2) [] hnil))
  rw [stripCR_noCR _ hnoCR]
  rw [splitNN_noNl _ _ (noNl_block d1 (fun c hc => (hc1 c hc).1)),
    splitNN_noNl _ _ (noNl_block dm (fun c hc => (hcm c hc).1)),
    splitNN_noNl _ _ (noNl_block d2 (fun c hc => (hc2 c hc).1))]
  have hy1 : frameYield p (dataMarker ++ d1) = some v1 := by
    unfold frameYield
    rw [handleFrame_yield p d1 j1 v1 ht1 hp1 hv1 he1 hr1]
  have hym : frameYield p (dataMarker ++ dm) = none := by
    unfold frameYield
    rw [handleFrame_skip_malformed p dm hm]
  have hy2 : frameYield p (dataMarker ++ d2) = some v2 := by
    unfold frameYield
    rw [handleFrame_yield p d2 j2 v2 ht2 hp2 hv2 he2 hr2]
  simp [splitNN, List.filterMap_cons, hy1, hym, hy2]

/-! Concrete material for the C5 witness. -/

/-- First well-formed result data line. -/
def okLineA : String :=
  "\x7b\"jsonrpc\":\"2.0\",\"id\":1,\"result\":\x7b\"id\":\"t1\"\x7d\x7d"

/-- Second well-formed result data line. -/
def okLineB : String :=
  "\x7b\"jsonrpc\":\"2.0\",\"id\":2,\"result\":\x7b\"id\":\"t2\"\x7d\x7d"

/-- The first frame's result. -/
def resA : Json := .obj [("id", .str "t1")]

/-- The second frame's result. -/
def resB : Json := .obj [("id", .str "t2")]

/-- The first parsed envelope. -/
def envA : Json := .obj [("jsonrpc", .str "2.0"), ("id", .num 1), ("result", resA)]

/-- The second parsed envelope. -/
def envB : Json := .obj [("jsonrpc", .str "2.0"), ("id", .num 2), ("result", resB)]

/-- `JSON.parse` oracle knowing the two well-formed C5 data lines; every
other line (in particular "notjson") throws. -/
def parse5 : String → Option Json :=
  fun s =>
    if s = okLineA then some envA
    else if s = okLineB then some envB
    else none

/-- Witness for C5: a stream of a well-formed result frame, a frame whose
body is not JSON, and a second well-formed result frame decodes to both
results in order. -/
theorem malformed_frame_between_results_witness :
    decodeResults parse5
      [dataMarker ++ okLineA.toList ++ ['\n', '\n']
        ++ (dataMarker ++ "notjson".toList ++ ['\n', '\n'])
        ++ (dataMarker ++ okLineB.toList ++ ['\n', '\n'])] = [resA, resB] :=
  malformed_frame_between_results parse5 okLineA.toList "notjson".toList
    okLineB.toList envA envB resA resB
    (by decide) (by decide) (by decide)
    (by decide) rfl rfl rfl rfl
    (Or.inl rfl)
    (by decide) rfl rfl rfl rfl

/-- C7: `agentCard()` first issues a GET to `<base>/.well-known/agent.json`;
when that attempt returns a success status its JSON body is returned; on
any failure of the first attempt (network error or non-success status) it
silently falls through to a GET of `<base>/agent-card`, whose success
status returns its JSON body and whose failure surfaces a single wrapped
error. -/
theorem agentCard_fallback (fetchOracle : List Char → FetchOutcome) (base : List Char) :
    (∀ st stx j, fetchOracle (wellKnownUrl base) = .resp true st stx (some j) →
      agentCard fetchOracle base = .card j) ∧
    (((∃ m, fetchOracle (wellKnownUrl base) = .netErr m) ∨
      (∃ st stx b, fetchOracle (wellKnownUrl base) = .resp false st stx b)) →
      ((∀ st stx j, fetchOracle (agentCardUrl base) = .resp true st stx (some j) →
        agentCard fetchOracle base = .card j) ∧
       (∀ st stx b, fetchOracle (agentCardUrl base) = .resp false st stx b →
        agentCard fetchOracle base = .wrappedHttp st stx) ∧
       (∀ m, fetchOracle (agentCardUrl base) = .netErr m →
        agentCard fetchOracle base = .wrappedNet m))) := by
  constructor
  · intro st stx j h
    unfold agentCard
    rw [h]
  · intro hfail
    have hstep : agentCard fetchOracle base =
        (match fetchOracle (agentCardUrl base) with
         | .resp true _ _ (some j) => .card j
         | .resp true _ _ none => .bodyNotJson
         | .resp false status statusText _ => .wrappedHttp status statusText
         | .netErr m => .wrappedNet m) := by
      rcases hfail with ⟨m, hm⟩ | ⟨st, stx, b, hb⟩
      · unfold agentCard
        rw [hm]
      · unfold agentCard
        rw [hb]
    refine ⟨?_, ?_, ?_⟩
    · intro st stx j h
      rw [hstep, h]
    · intro st stx b h
      rw [hstep, h]
    · intro m h
      rw [hstep, h]

/-! Concrete material for the C7 and C8 witnesses. -/

/-- A small AgentCard body. -/
def cardW : Json := .obj [("name", .str "agent"), ("version", .str "1.0")]

/-- Fetch oracle: the well-known path of host a succeeds, everything else
is unreachable. -/
def fetch7 : List Char → FetchOutcome :=
  fun u =>
    if u = "http://a/.well-known/agent.json".toList
    then .resp true 200 "OK" (some cardW)
    else .netErr "refused"

/-- Fetch oracle: the well-known path fails with a network error and the
agent-card path responds with status 404. -/
def fetch7b : List Char → FetchOutcome :=
  fun u =>
    if u = "http://b/agent-card".toList
    then .resp false 404 "Not Found" none
    else .netErr "refused"

/-- Witness for C7: a successful well-known attempt returns its body, and
a run whose two attempts both fail surfaces the single wrapped error of
the second attempt. -/
theorem agentCard_fallback_witness :
    agentCard fetch7 "http://a".toList = .card cardW ∧
    agentCard fetch7b "http://b".toList = .wrappedHttp 404 "Not Found" :=
  ⟨(agentCard_fallback fetch7 "http://a".toList).1 200 "OK" cardW rfl,
   ((agentCard_fallback fetch7b "http://b".toList).2 (Or.inl ⟨"refused", rfl⟩)).2.1
     404 "Not Found" none rfl⟩

/-- The registered clients are exactly the configured endpoints whose
probe succeeded, in configured order, each paired with its identifier. -/
theorem initClients_char (fetchOracle : List Char → FetchOutcome)
    (endpoints : List AgentEndpoint) :
    initClients fetchOracle endpoints
      = (endpoints.filter (fun e => probeOk fetchOracle e.url)).map
          (fun e => (e.id, mkClient e.url)) := by
  induction endpoints with
  | nil => rfl
  | cons e es ih =>
    rw [List.filter_cons]
    cases hc : agentCard fetchOracle (mkClient e.url).baseUrl with
    | card j =>
      have hp : probeOk fetchOracle e.url = true := by
        unfold probeOk
        rw [hc]
      simp only [initClients, hc, hp, ih, if_true]
      rfl
    | bodyNotJson =>
      have hp : probeOk fetchOracle e.url = false := by
        unfold probeOk
        rw [hc]
      simp only [initClients, hc, hp, ih, if_false]
      simp
    | wrappedHttp st stx =>
      have hp : probeOk fetchOracle e.url = false := by
        unfold probeOk
        rw [hc]
      simp only [initClients, hc, hp, ih, if_false]
      simp
    | wrappedNet m =>
      have hp : probeOk fetchOracle e.url = false := by
        unfold probeOk
        rw [hc]
      simp only [initClients, hc, hp, ih, if_false]
      simp

/-- C8: when the registry initializes over a two-endpoint configuration in
which the first endpoint's `agentCard()` probe succeeds and the second's
fails, exactly the first endpoint's client is registered: lookup of the
failed endpoint's identifier is absent, the client map holds only the
successful entry, and `getEndpoints` still reports the full configured
list. -/
theorem registry_partial_availability (fetchOracle : List Char → FetchOutcome)
    (e1 e2 : AgentEndpoint)
    (h1 : probeOk fetchOracle e1.url = true)
    (h2 : probeOk fetchOracle e2.url = false)
    (hne : e1.id ≠ e2.id) :
    getClientById (initClients fetchOracle [e1, e2]) e2.id = none ∧
    initClients fetchOracle [e1, e2] = [(e1.id, mkClient e1.url)] ∧
    getEndpoints [e1, e2] = [e1, e2] := by
  have hi : initClients fetchOracle [e1, e2] = [(e1.id, mkClient e1.url)] := by
    rw [initClients_char]
    simp [List.filter_cons, h1, h2]
  refine ⟨?_, hi, rfl⟩
  rw [hi]
  unfold getClientById
  have hb : (e2.id == e1.id) = false := beq_eq_false_iff_ne.mpr (Ne.symm hne)
  simp [List.lookup, hb]

/-- Registry endpoints for the C8 witness. -/
def epA : AgentEndpoint := ⟨"idA", "http://a".toList⟩

/-- The unreachable endpoint for the C8 witness. -/
def epB : AgentEndpoint := ⟨"idB", "http://b".toList⟩

/-- Witness for C8 over `fetch7`: endpoint a probes fine, endpoint b is
unreachable. -/
theorem registry_partial_availability_witness :
    getClientById (initClients fetch7 [epA, epB]) epB.id = none ∧
    initClients fetch7 [epA, epB] = [(epA.id, mkClient epA.url)] ∧
    getEndpoints [epA, epB] = [epA, epB] :=
  registry_partial_availability fetch7 epA epB rfl rfl (by decide)

/-- C10: a well-formed envelope with the protocol marker, no truthy
`error` member, and a `result` member carrying any JSON value whatsoever
is passed through verbatim: the unary handler returns and the stream
decoder yields exactly that value, with no structural validation against
the Task or event shapes (the witness exercises the JSON null). -/
theorem result_passthrough (p : String → Option Json) (r : Response)
    (d : List Char) (j v : Json)
    (hok : r.ok = true) (hbody : p r.body = some j)
    (hne : trimEnds d ≠ []) (hline : p (trimEnds d).asString = some j)
    (hval : isValidEnvelope j = true) (hsval : streamValidEnvelope j = true)
    (herr : truthyField j "error" = false)
    (hres : getField j "result" = some v) :
    handleJsonResponse p r = .success (some v) ∧
    handleFrame p (dataMarker ++ d) = .yield v := by
  constructor
  · rw [handleJson_success_of p r j hok hbody hval herr, hres]
  · exact handleFrame_yield p d j v hne hline hsval herr hres

/-! Concrete material for the C10 witness. -/

/-- A body whose envelope carries `result: null`. -/
def nullBody : String := "\x7b\"jsonrpc\":\"2.0\",\"result\":null\x7d"

/-- The parsed envelope with a null result. -/
def nullEnvelope : Json := .obj [("jsonrpc", .str "2.0"), ("result", .null)]

/-- `JSON.parse` oracle knowing the null-result body. -/
def parse10 : String → Option Json :=
  fun s => if s = nullBody then some nullEnvelope else none

/-- A successful unary response carrying the null-result envelope. -/
def resp10 : Response := ⟨true, 200, "OK", nullBody⟩

/-- Witness for C10 at the null result value. -/
theorem result_passthrough_witness :
    handleJsonResponse parse10 resp10 = .success (some .null) ∧
    handleFrame parse10 (dataMarker ++ nullBody.toList) = .yield .null :=
  result_passthrough parse10 resp10 nullBody.toList nullEnvelope .null
    rfl rfl (by decide) rfl rfl rfl rfl rfl

end A2A
